import Mathlib

/-!
Shallow embedding of the pairing/relay core of the ExperienceRemote
repository, together with theorems settling the frozen claims about it.

The embedding covers:
* `apps/signaling-server/src/rooms.ts` — the hosted room registry
  (`createRoom`, `joinRoom`, `getRoom`, `getRoomBySocketId`, `removeRoom`,
  `removeSocketFromRoom`, `cleanupExpiredRooms`);
* the hosted relay `remote-message` handler (signaling-server index file);
* the embedded desktop relay server (`EmbeddedSignalingServer`);
* `apps/desktop/src/main/tunnel.ts` (`TunnelManager`) and the desktop
  main-process composition (`initializeServices` / `createRoomAndQR` /
  `handleRemoteMessage`);
* the motion filter of `apps/web-remote/src/hooks/useTouch.ts`
  (`calculateAcceleration`, `DEFAULT_ACCELERATION`, the dead-zone branch of
  `handleTouchMove`).

JavaScript `Map<string, Room>` values are modelled as association lists in
insertion order (a real `Map` has unique keys; `set` on an existing key
replaces the value in place, `set` on a fresh key appends, iteration is in
insertion order).  Timestamps (`Date.now()` milliseconds) are `Nat`.
JavaScript string truthiness (`if (s)`) is modelled by `strTruthy`:
`null`/absent and the empty string are falsy.  The motion-filter arithmetic
(IEEE doubles in the source) is idealized over `ℝ`, the standard exact-real
reading of the formulas.
-/

/-- Room record of `rooms.ts`: code, host socket, optionally bound client
socket, creation and expiry timestamps (ms). -/
structure Room where
  code : String
  hostSocketId : String
  clientSocketId : Option String
  createdAt : Nat
  expiresAt : Nat
deriving Repr, DecidableEq

/-- The registry `const rooms = new Map<string, Room>()`, as an association
list in insertion order. -/
abbrev Registry := List (String × Room)

/-- `ROOM_EXPIRY_MS = 5 * 60 * 1000` (5 minutes). -/
def ROOM_EXPIRY_MS : Nat := 5 * 60 * 1000

/-- JavaScript `toUpperCase()` on the ASCII strings used here: the character
case map applied to every character (executable, unlike `String.toUpper`
whose position-based recursion does not reduce in the kernel). -/
def jsToUpper (s : String) : String :=
  String.mk (s.data.map Char.toUpper)

/-- JavaScript truthiness of a nullable string: `null` and `""` are falsy. -/
def strTruthy : Option String → Bool
  | none => false
  | some s => s != ""

/-- `rooms.get(k)`: first (unique) entry with key `k`. -/
def lookupRoom (k : String) : Registry → Option Room
  | [] => none
  | (k', r) :: rest => if k' == k then some r else lookupRoom k rest

/-- `rooms.set(k, r)`: replace the value at an existing key in place,
otherwise append (JavaScript `Map` insertion-order semantics). -/
def setRoom (k : String) (r : Room) : Registry → Registry
  | [] => [(k, r)]
  | (k', r') :: rest => if k' == k then (k, r) :: rest else (k', r') :: setRoom k r rest

/-- `rooms.delete(k)`: remove the (unique) entry with key `k`. -/
def deleteRoom (k : String) : Registry → Registry
  | [] => []
  | (k', r) :: rest => if k' == k then rest else (k', r) :: deleteRoom k rest

/-- `rooms.has(k)`. -/
def hasCode (k : String) : Registry → Bool
  | [] => false
  | (k', _) :: rest => k' == k || hasCode k rest

/-- The code alphabet of `generateRoomCode`: uppercase letters and digits
avoiding the confusing characters `0/O/1/I` (32 symbols). -/
def roomCodeChars : String := "ABCDEFGHJKLMNPQRSTUVWXYZ23456789"

/-- `generateRoomCode()`: six draws `Math.floor(Math.random() * chars.length)`
(each a uniform index below 32, here an arbitrary `Fin 32`) indexed into the
alphabet. -/
def generateRoomCode (randoms : Fin 6 → Fin 32) : String :=
  String.mk ((List.finRange 6).map (fun i => roomCodeChars.data.getD (randoms i).val 'A'))

/-- A valid room code: 6 characters, all from the 32-symbol alphabet. -/
def isValidRoomCode (s : String) : Prop :=
  s.length = 6 ∧ ∀ c ∈ s.data, c ∈ roomCodeChars.data

/-- `cleanupExpiredRooms()`: delete every room with `now > expiresAt`. -/
def cleanupExpiredRooms (now : Nat) (reg : Registry) : Registry :=
  reg.filter (fun p => !(decide (now > p.2.expiresAt)))

/-- `createRoom(hostSocketId)`: clean up expired rooms, then draw codes with
`generateRoomCode` until one is not already a key of the registry (the
`while (rooms.has(code))` loop walks the supplied stream of random draws;
`none` models the loop not terminating on the given draws), then insert the
new room with `expiresAt = now + ROOM_EXPIRY_MS`. -/
def createRoom (draws : List (Fin 6 → Fin 32)) (hostSocketId : String) (now : Nat)
    (reg : Registry) : Option (Room × Registry) :=
  let reg1 := cleanupExpiredRooms now reg
  match (draws.map generateRoomCode).find? (fun c => !(hasCode c reg1)) with
  | none => none
  | some code =>
    let room : Room :=
      { code := code
        hostSocketId := hostSocketId
        clientSocketId := none
        createdAt := now
        expiresAt := now + ROOM_EXPIRY_MS }
    some (room, setRoom code room reg1)

/-- Result of `joinRoom`.  The source returns `Room | null` and distinguishes
the three failure branches only by control flow and distinct log lines
(`Room not found` / `Room expired` / `Room already has a client`); the
constructors record which branch was taken. -/
inductive JoinResult where
  | ok (room : Room)
  | notFound
  | expired
  | alreadyBound
deriving Repr, DecidableEq

/-- `joinRoom(code, clientSocketId)`: look up `code.toUpperCase()`; absent →
not-found; `now > expiresAt` → delete under the RAW `code` key (exactly as
the source's `rooms.delete(code)` — not the uppercased key) and fail; a
truthy `clientSocketId` already bound → fail; otherwise bind the client and
extend `expiresAt = now + ROOM_EXPIRY_MS * 2`. -/
def joinRoom (now : Nat) (code clientSocketId : String) (reg : Registry) :
    JoinResult × Registry :=
  match lookupRoom (jsToUpper code) reg with
  | none => (.notFound, reg)
  | some room =>
    if now > room.expiresAt then
      (.expired, deleteRoom code reg)
    else if strTruthy room.clientSocketId then
      (.alreadyBound, reg)
    else
      let room' : Room :=
        { room with clientSocketId := some clientSocketId
                    expiresAt := now + ROOM_EXPIRY_MS * 2 }
      (.ok room', setRoom (jsToUpper code) room' reg)

/-- `getRoom(code)`. -/
def getRoom (code : String) (reg : Registry) : Option Room :=
  lookupRoom (jsToUpper code) reg

/-- `getRoomBySocketId(socketId)`: first room (insertion order) whose host or
client socket is `socketId`. -/
def getRoomBySocketId (socketId : String) : Registry → Option Room
  | [] => none
  | (_, r) :: rest =>
    if r.hostSocketId == socketId || r.clientSocketId == some socketId then some r
    else getRoomBySocketId socketId rest

/-- `removeRoom(code)`. -/
def removeRoom (code : String) (reg : Registry) : Registry :=
  deleteRoom (jsToUpper code) reg

/-- `removeSocketFromRoom(socketId)`: host leaving destroys the room
(`rooms.delete(room.code)`); a bound client leaving clears `clientSocketId`
in place (rendered as an update at the room's key, which is the room's code
for registries built by the operations above). -/
def removeSocketFromRoom (socketId : String) (reg : Registry) :
    Registry × Option Room :=
  match getRoomBySocketId socketId reg with
  | none => (reg, none)
  | some room =>
    if room.hostSocketId == socketId then
      (deleteRoom room.code reg, some room)
    else if room.clientSocketId == some socketId then
      (setRoom room.code { room with clientSocketId := none } reg, some room)
    else
      (reg, some room)

/-- Registry well-formedness: keys are pairwise distinct (true of any real
`Map`) and every room is stored under its own code (true of every registry
built by `createRoom`/`joinRoom`/`removeSocketFromRoom`). -/
def RegistryInv (reg : Registry) : Prop :=
  (reg.map Prod.fst).Nodup ∧ ∀ p ∈ reg, p.2.code = p.1

instance (reg : Registry) : Decidable (RegistryInv reg) := by
  unfold RegistryInv; infer_instance

/-- The codes of the live rooms. -/
def roomCodes (reg : Registry) : List String :=
  reg.map (fun p => p.2.code)

/-- The hosted relay's `remote-message` handler: find the sender's room; the
message is forwarded to `room.hostSocketId` only when the sender is the
bound client and the host id is truthy (`socket.id === room.clientSocketId
&& room.hostSocketId`); otherwise it is silently dropped.  The result is the
target socket of the forwarded message, if any. -/
def relayRemoteMessage (senderId : String) (reg : Registry) : Option String :=
  match getRoomBySocketId senderId reg with
  | none => none
  | some room =>
    if (room.clientSocketId == some senderId) && (room.hostSocketId != "") then
      some room.hostSocketId
    else
      none

/-- Room record of the embedded desktop relay (`EmbeddedSignalingServer`):
note that, unlike the hosted registry's `Room`, it carries no `expiresAt` —
the embedded server never expires its single room. -/
structure ERoom where
  code : String
  hostSocketId : String
  clientSocketId : Option String
  createdAt : Nat
deriving Repr, DecidableEq

/-- Result of the embedded server's `join-room` handler, one constructor per
callback branch (`No room available` / `Room not found` /
`Room already has a client` / success). -/
inductive EJoinResult where
  | success (room : ERoom)
  | noRoom
  | notFound
  | alreadyHasClient
deriving Repr, DecidableEq

/-- The embedded server's `join-room` handler: fails if there is no room, if
`roomCode.toUpperCase() !== room.code`, or if `clientSocketId` is truthy;
otherwise binds the client.  No clock is read anywhere — the outcome is
independent of elapsed time. -/
def embeddedJoinRoom (room? : Option ERoom) (roomCode socketId : String) :
    Option ERoom × EJoinResult :=
  match room? with
  | none => (none, .noRoom)
  | some room =>
    if jsToUpper roomCode != room.code then
      (some room, .notFound)
    else if strTruthy room.clientSocketId then
      (some room, .alreadyHasClient)
    else
      let room' : ERoom := { room with clientSocketId := some socketId }
      (some room', .success room')

/-- `EmbeddedSignalingServer.createRoom()`: a fresh room with a generated
code, the fixed host id `embedded-host`, no client and no expiry field. -/
def embeddedCreateRoom (randoms : Fin 6 → Fin 32) (now : Nat) : ERoom :=
  { code := generateRoomCode randoms
    hostSocketId := "embedded-host"
    clientSocketId := none
    createdAt := now }

/-- The embedded server's `remote-message` handler forwards to the desktop
callback exactly when the sender is the bound client
(`socket.id === this.room.clientSocketId`). -/
def embeddedRelayForwards (room? : Option ERoom) (senderId : String) : Bool :=
  match room? with
  | none => false
  | some room => room.clientSocketId == some senderId

/-- State of `TunnelManager`: the retry counter and `this.tunnel`'s URL
(`none` when the tunnel is down). -/
structure TunnelSt where
  reconnectAttempts : Nat
  tunnelUrl : Option String
deriving Repr, DecidableEq

/-- `maxReconnectAttempts = 5`. -/
def maxReconnectAttempts : Nat := 5

/-- The `setTimeout(() => this.attemptReconnect(), 5000)` delay. -/
def tunnelRetryDelayMs : Nat := 5000

/-- Outcome of one `localtunnel` connection attempt, supplied as an oracle. -/
inductive ConnectOutcome where
  | success (url : String)
  | failure
deriving Repr, DecidableEq

/-- One invocation of `TunnelManager.attemptReconnect()`: if the counter has
reached the ceiling, return without attempting; otherwise increment the
counter and attempt `connect` — success stores the tunnel and resets the
counter, failure schedules a retry after `tunnelRetryDelayMs`.  Returns the
new state, whether a connection attempt was actually made, the new URL
delivered to `onUrlChange` on success, and the scheduled retry delay. -/
def attemptReconnect (o : ConnectOutcome) (s : TunnelSt) :
    TunnelSt × Bool × Option String × Option Nat :=
  if s.reconnectAttempts ≥ maxReconnectAttempts then
    (s, false, none, none)
  else
    match o with
    | .success url => ({ reconnectAttempts := 0, tunnelUrl := some url }, true, some url, none)
    | .failure =>
      ({ s with reconnectAttempts := s.reconnectAttempts + 1 }, true, none,
        some tunnelRetryDelayMs)

/-- The tunnel `close` handler sets `this.tunnel = null` (and then invokes
`attemptReconnect`, driven separately below). -/
def closeTunnel (s : TunnelSt) : TunnelSt :=
  { s with tunnelUrl := none }

/-- `LOCAL_PORT = 3001`. -/
def localPort : Nat := 3001

/-- The local-only fallback URL advertised by `initializeServices`, i.e.
`http://localhost:${LOCAL_PORT}`. -/
def localOnlyUrl : String := "http://localhost:3001"

/-- Desktop main-process view: the tunnel manager state plus the server URL
last passed to `createRoomAndQR` (the URL advertised in the QR payload). -/
structure DesktopSt where
  tunnel : TunnelSt
  advertisedServerUrl : Option String
deriving Repr, DecidableEq

/-- `initializeServices`' tunnel phase: on a successful initial connect the
tunnel URL is advertised; on failure the process falls back to local-only
mode and advertises `http://localhost:<port>` (no retry is attempted — the
reconnect path only runs from the tunnel `close` event). -/
def initializeTunnel (o : ConnectOutcome) : DesktopSt :=
  match o with
  | .success url =>
    { tunnel := { reconnectAttempts := 0, tunnelUrl := some url }
      advertisedServerUrl := some url }
  | .failure =>
    { tunnel := { reconnectAttempts := 0, tunnelUrl := none }
      advertisedServerUrl := some localOnlyUrl }

/-- One desktop-level reconnect invocation: run `attemptReconnect`; a new URL
(success) flows through `onUrlChanged` into `createRoomAndQR`, updating the
advertised URL; a failure leaves it untouched. -/
def desktopReconnectStep (o : ConnectOutcome) (d : DesktopSt) :
    DesktopSt × Bool × Option Nat :=
  let r := attemptReconnect o d.tunnel
  ({ tunnel := r.1
     advertisedServerUrl :=
       match r.2.2.1 with
       | some url => some url
       | none => d.advertisedServerUrl },
   r.2.1, r.2.2.2)

/-- A chain of reconnect invocations in which every connection attempt fails,
following the scheduled retries until none is scheduled (or the fuel runs
out).  Returns the final state and the number of connection attempts
actually made. -/
def runFailedReconnects : Nat → DesktopSt → DesktopSt × Nat
  | 0, d => (d, 0)
  | fuel + 1, d =>
    let r := desktopReconnectStep .failure d
    match r.2.2 with
    | some _ =>
      let r' := runFailedReconnects fuel r.1
      (r'.1, (if r.2.1 then 1 else 0) + r'.2)
    | none => (r.1, if r.2.1 then 1 else 0)

/-- The `regenerate-room` IPC handler's server URL:
`tunnelManager.getUrl() || http://localhost:${LOCAL_PORT}`. -/
def regenerateServerUrl (d : DesktopSt) : String :=
  d.tunnel.tunnelUrl.getD localOnlyUrl


/-- The `RelayMessage` tagged union as dispatched by `handleRemoteMessage`
in the desktop main process.  Numeric payloads (IEEE doubles in the source)
are opaque to the dispatcher and carried as `Int`. -/
inductive RemoteMessage where
  | mouseMove (dx dy : Int)
  | click (button : String)
  | mouseDown (button : String)
  | mouseUp (button : String)
  | scroll (dx dy : Int)
  | gyro (dx dy : Int)
  | key (k : String)
  | text (t : String)
  | navigate (direction : String)
  | media (action : String)
  | osc (trigger : Int)
  | unknown (tag : String)
deriving Repr, DecidableEq

/-- One call into the input sink (`InputController`) or trigger sink
(`OSCSender`). -/
inductive SinkEffect where
  | moveMouse (dx dy : Int)
  | click (button : String)
  | mouseDown (button : String)
  | mouseUp (button : String)
  | scroll (dx dy : Int)
  | pressKey (k : String)
  | typeText (t : String)
  | navigate (direction : String)
  | sendMedia (action : String)
  | sendTrigger (trigger : Int)
deriving Repr, DecidableEq

/-- Outcome of `handleRemoteMessage` for one message. -/
inductive HandleOutcome where
  | noInput
  | applied (e : SinkEffect)
  | caught (err : String)
  | unknownLogged (tag : String)
  | skipped
deriving Repr, DecidableEq

/-- The sink call made by each `switch` case of `handleRemoteMessage`
(`gyro` reuses `moveMouse`; `media`/`osc` go through the optional
`oscSender?.` so they make no call when the OSC sender is absent; the
`default` case makes none). -/
def effectCall (hasOsc : Bool) : RemoteMessage → Option SinkEffect
  | .mouseMove dx dy => some (.moveMouse dx dy)
  | .click b => some (.click b)
  | .mouseDown b => some (.mouseDown b)
  | .mouseUp b => some (.mouseUp b)
  | .scroll dx dy => some (.scroll dx dy)
  | .gyro dx dy => some (.moveMouse dx dy)
  | .key k => some (.pressKey k)
  | .text t => some (.typeText t)
  | .navigate d => some (.navigate d)
  | .media a => if hasOsc then some (.sendMedia a) else none
  | .osc t => if hasOsc then some (.sendTrigger t) else none
  | .unknown _ => none

/-- `handleRemoteMessage(message)`: return immediately if the input
controller is absent; otherwise dispatch on the tag inside `try { ... }
catch`, so a sink that throws yields a caught-and-logged outcome rather
than a propagated exception.  Unknown tags hit the `default` branch and are
only logged.  The sink is a function that either succeeds or throws
(`Except.error`). -/
def handleRemoteMessage (hasInput hasOsc : Bool)
    (sink : SinkEffect → Except String Unit) (msg : RemoteMessage) : HandleOutcome :=
  if hasInput = false then .noInput
  else
    match msg with
    | .unknown tag => .unknownLogged tag
    | m =>
      match effectCall hasOsc m with
      | some e =>
        match sink e with
        | .ok _ => .applied e
        | .error err => .caught err
      | none => .skipped

/-- The host's inbound message stream, dispatched one message at a time via
`handleRemoteMessage` (the `embeddedServer.onMessage` subscription); no
state is threaded between messages. -/
def dispatchLoop (hasInput hasOsc : Bool) (sink : SinkEffect → Except String Unit) :
    List RemoteMessage → List HandleOutcome
  | [] => []
  | m :: ms => handleRemoteMessage hasInput hasOsc sink m :: dispatchLoop hasInput hasOsc sink ms

/-- The five-parameter acceleration configuration of `useTouch.ts`. -/
structure AccelerationConfig where
  minVelocityThreshold : ℝ
  maxVelocity : ℝ
  curveExponent : ℝ
  baseMultiplier : ℝ
  maxAcceleration : ℝ

/-- `calculateAcceleration(velocity, config)`: below the threshold the
precision-mode multiplier `baseMultiplier * 0.8`; otherwise normalize the
velocity into `[0,1]` against `[minVelocityThreshold, maxVelocity]`, raise
to `curveExponent` (`Math.pow`, i.e. `Real.rpow`), and interpolate between
`baseMultiplier` and `maxAcceleration`. -/
noncomputable def calculateAcceleration (velocity : ℝ) (config : AccelerationConfig) : ℝ :=
  if velocity < config.minVelocityThreshold then
    config.baseMultiplier * 0.8
  else
    let normalizedVelocity :=
      min ((velocity - config.minVelocityThreshold) /
            (config.maxVelocity - config.minVelocityThreshold)) 1
    let curvedVelocity := normalizedVelocity ^ config.curveExponent
    let accelerationRange := config.maxAcceleration - config.baseMultiplier
    config.baseMultiplier + curvedVelocity * accelerationRange

/-- `DEFAULT_ACCELERATION` of `useTouch.ts`. -/
noncomputable def DEFAULT_ACCELERATION : AccelerationConfig :=
  { minVelocityThreshold := 0.15
    maxVelocity := 1.5
    curveExponent := 1.2
    baseMultiplier := 1.0
    maxAcceleration := 2.2 }

/-- `MOVEMENT_DEAD_ZONE` of the acceleration build of `useTouch.ts`. -/
noncomputable def MOVEMENT_DEAD_ZONE : ℝ := 0.5

/-- `VELOCITY_HISTORY_SIZE = 3`. -/
def VELOCITY_HISTORY_SIZE : Nat := 3

/-- The position bookkeeping of `touchState` used by `handleTouchMove`. -/
structure TouchSt where
  lastX : ℝ
  lastY : ℝ
  lastMoveTime : ℝ

/-- `getSmoothedVelocity(vx, vy)`: push the sample, drop the oldest beyond
`VELOCITY_HISTORY_SIZE`, and return the linearly weighted average (weight
`i + 1` on the `i`-th entry) together with the updated history. -/
noncomputable def getSmoothedVelocity (history : List (ℝ × ℝ)) (v : ℝ × ℝ) :
    List (ℝ × ℝ) × (ℝ × ℝ) :=
  let h1 := history ++ [v]
  let h2 := if h1.length > VELOCITY_HISTORY_SIZE then h1.tail else h1
  let sums : ℝ × ℝ × ℝ :=
    h2.enum.foldl
      (fun acc iv =>
        (acc.1 + ((iv.1 : ℝ) + 1) * iv.2.1,
         acc.2.1 + ((iv.1 : ℝ) + 1) * iv.2.2,
         acc.2.2 + ((iv.1 : ℝ) + 1)))
      (0, 0, 0)
  (h2, (sums.1 / sums.2.2, sums.2.1 / sums.2.2))

/-- Result of one `handleTouchMove` invocation: updated position
bookkeeping, updated velocity history, the `onMove` delta (single finger)
and the `onScroll` delta (two fingers), if emitted. -/
structure MoveStepResult where
  state : TouchSt
  history : List (ℝ × ℝ)
  moveEmit : Option (ℝ × ℝ)
  scrollEmit : Option (ℝ × ℝ)

/-- One `handleTouchMove` invocation (acceleration build): compute the raw
delta from the last position; a raw Euclidean magnitude below
`MOVEMENT_DEAD_ZONE` advances the bookkeeping but emits nothing; otherwise
smooth the instantaneous velocity (elapsed time floored at 1ms), apply
`calculateAcceleration` and the sensitivity, and emit the move delta for a
single touch or the halved, sign-inverted raw scroll delta for two. -/
noncomputable def handleTouchMoveStep (sensitivity : ℝ) (st : TouchSt)
    (history : List (ℝ × ℝ)) (x y now : ℝ) (touches : Nat) : MoveStepResult :=
  let rawDx := x - st.lastX
  let rawDy := y - st.lastY
  let rawMagnitude := Real.sqrt (rawDx * rawDx + rawDy * rawDy)
  if rawMagnitude < MOVEMENT_DEAD_ZONE then
    { state := { lastX := x, lastY := y, lastMoveTime := now }
      history := history
      moveEmit := none
      scrollEmit := none }
  else
    let timeDelta := max (now - st.lastMoveTime) 1
    let sm := getSmoothedVelocity history (rawDx / timeDelta, rawDy / timeDelta)
    let smoothedVelocity := Real.sqrt (sm.2.1 * sm.2.1 + sm.2.2 * sm.2.2)
    let accelerationFactor := calculateAcceleration smoothedVelocity DEFAULT_ACCELERATION
    let dx := rawDx * accelerationFactor * sensitivity
    let dy := rawDy * accelerationFactor * sensitivity
    { state := { lastX := x, lastY := y, lastMoveTime := now }
      history := sm.1
      moveEmit := if touches = 1 then some (dx, dy) else none
      scrollEmit :=
        if touches = 1 then none
        else if touches = 2 then
          some (-(rawDx * sensitivity * 0.5), -(rawDy * sensitivity * 0.5))
        else none }


/-! ### Claim-specific data and conclusion predicates -/

/-- A live room whose five-minute expiry has passed by time 400000. -/
def c1Room : Room :=
  { code := "AB23CD", hostSocketId := "host-1", clientSocketId := none,
    createdAt := 0, expiresAt := ROOM_EXPIRY_MS }

/-- The registry holding `c1Room` under its (uppercase) code, exactly as
`createRoom` stores it. -/
def c1Reg : Registry := [("AB23CD", c1Room)]

/-- The room as rewritten by a successful `joinRoom` at time `now1`:
client bound, expiry extended by `ROOM_EXPIRY_MS * 2` (10 minutes). -/
def joinedRoom (room : Room) (c1 : String) (now1 : Nat) : Room :=
  { room with clientSocketId := some c1, expiresAt := now1 + ROOM_EXPIRY_MS * 2 }

/-- Conclusion of C2: the first case-insensitive join of the fresh room
succeeds, binding the client and extending the expiry to `now1 + 10min`
(`600000` ms); while that client is bound, any further join of the same
code (any casing, any client) takes the already-bound branch, which is a
distinct result from the not-found and expired branches. -/
def JoinOnceConcl (room : Room) (reg' : Registry) (codeStr c1 : String) (now1 : Nat) : Prop :=
  ∃ r1 reg2, joinRoom now1 codeStr c1 reg' = (JoinResult.ok r1, reg2)
    ∧ r1.clientSocketId = some c1
    ∧ r1.code = room.code
    ∧ r1.expiresAt = now1 + 600000
    ∧ ∀ codeStr2 c2 now2, jsToUpper codeStr2 = room.code → ¬ now2 > r1.expiresAt →
        joinRoom now2 codeStr2 c2 reg2 = (JoinResult.alreadyBound, reg2)
        ∧ JoinResult.alreadyBound ≠ JoinResult.notFound
        ∧ JoinResult.alreadyBound ≠ JoinResult.expired

/-- One random draw for the C2 witness: all indices zero, generating the
code `AAAAAA`. -/
def c2Draw : Fin 6 → Fin 32 := fun _ => 0

/-- The room `createRoom [c2Draw] "host-1" 0 []` creates. -/
def c2Room : Room :=
  { code := "AAAAAA", hostSocketId := "host-1", clientSocketId := none,
    createdAt := 0, expiresAt := ROOM_EXPIRY_MS }

/-- The registry after that `createRoom`. -/
def c2Reg : Registry := [("AAAAAA", c2Room)]

/-- One random draw for the C3 witness: all indices one, generating the
code `BBBBBB`. -/
def c3Draw : Fin 6 → Fin 32 := fun _ => 1

/-- The room `createRoom [c3Draw] "host-9" 0 []` creates. -/
def c3Room : Room :=
  { code := "BBBBBB", hostSocketId := "host-9", clientSocketId := none,
    createdAt := 0, expiresAt := ROOM_EXPIRY_MS }

/-- The registry after that `createRoom`. -/
def c3Reg : Registry := [("BBBBBB", c3Room)]

/-- Conclusion of C4: removing the host's connection deletes the room — its
code looks up to nothing and any later join of that code (any casing, any
time) fails with the not-found result; removing the bound client's
connection merely clears `clientSocketId`, leaving the room present under
its code and joinable again by a new client before expiry. -/
def RemovalConcl (reg : Registry) (s : String) (r : Room) : Prop :=
  (r.hostSocketId = s →
    lookupRoom r.code (removeSocketFromRoom s reg).1 = none
    ∧ ∀ now c codeStr, jsToUpper codeStr = r.code →
        joinRoom now codeStr c (removeSocketFromRoom s reg).1
          = (JoinResult.notFound, (removeSocketFromRoom s reg).1))
  ∧ (r.hostSocketId ≠ s → r.clientSocketId = some s →
    lookupRoom r.code (removeSocketFromRoom s reg).1 = some { r with clientSocketId := none }
    ∧ ∀ now c codeStr, jsToUpper codeStr = r.code → ¬ now > r.expiresAt →
        ∃ r', (joinRoom now codeStr c (removeSocketFromRoom s reg).1).1 = JoinResult.ok r'
          ∧ r'.clientSocketId = some c ∧ r'.code = r.code)

/-- The room of the C4 witness registry, with a bound client. -/
def c4Room : Room :=
  { code := "AB23CD", hostSocketId := "host-1", clientSocketId := some "client-1",
    createdAt := 0, expiresAt := ROOM_EXPIRY_MS }

/-- The C4 witness registry. -/
def c4Reg : Registry := [("AB23CD", c4Room)]

/-- Conclusion of C5: in the hosted relay a `remote-message` is forwarded
(with target `t`) exactly when its sender is the bound client of its room,
and the target is that room's host — so the phone-side client is never a
forwarding target of an application message; a sender that has a room but
is not its bound client is silently dropped (`none`, no error).  The
embedded relay forwards to the desktop callback under exactly the same
sender-is-bound-client condition. -/
def RelayConcl (reg : Registry) : Prop :=
  (∀ s t, relayRemoteMessage s reg = some t ↔
     ∃ r, getRoomBySocketId s reg = some r ∧ r.clientSocketId = some s ∧ t = r.hostSocketId)
  ∧ (∀ s r, getRoomBySocketId s reg = some r → r.clientSocketId ≠ some s →
      relayRemoteMessage s reg = none)
  ∧ (∀ room? s, embeddedRelayForwards room? s = true ↔
      ∃ r, room? = some r ∧ r.clientSocketId = some s)

/-- The room of the C5 witness registry. -/
def c5Room : Room :=
  { code := "AB23CD", hostSocketId := "host-1", clientSocketId := some "client-1",
    createdAt := 0, expiresAt := ROOM_EXPIRY_MS }

/-- The C5 witness registry. -/
def c5Reg : Registry := [("AB23CD", c5Room)]

/-- The tunnel `close` event at the desktop level: `this.tunnel = null`
(after which `attemptReconnect` runs, driven by `runFailedReconnects`). -/
def onTunnelClose (d : DesktopSt) : DesktopSt :=
  { d with tunnel := closeTunnel d.tunnel }

/-- C6 witness state: counter at zero, tunnel down, some stale advertised
URL. -/
def c6WitnessSt : DesktopSt :=
  { tunnel := { reconnectAttempts := 0, tunnelUrl := none }
    advertisedServerUrl := some "https://old.loca.lt" }

/-- The smoothed velocity magnitude computed inside `handleTouchMove`
(elapsed time floored at 1 ms, weighted-average smoothing, Euclidean
norm). -/
noncomputable def smoothedSpeed (st : TouchSt) (hist : List (ℝ × ℝ)) (x y now : ℝ) : ℝ :=
  let timeDelta := max (now - st.lastMoveTime) 1
  let sm := getSmoothedVelocity hist ((x - st.lastX) / timeDelta, (y - st.lastY) / timeDelta)
  Real.sqrt (sm.2.1 * sm.2.1 + sm.2.2 * sm.2.2)

/-- Conclusion of C9: a raw displacement of Euclidean magnitude below the
dead zone emits neither move nor scroll but still advances the position and
time bookkeeping; a single-touch displacement at or above it emits a move
delta whose componentwise signs agree with the raw displacement's. -/
def C9Concl (sens : ℝ) (st : TouchSt) (hist : List (ℝ × ℝ)) (x y now : ℝ) (touches : Nat) : Prop :=
  (Real.sqrt ((x - st.lastX) * (x - st.lastX) + (y - st.lastY) * (y - st.lastY))
      < MOVEMENT_DEAD_ZONE →
    (handleTouchMoveStep sens st hist x y now touches).moveEmit = none
    ∧ (handleTouchMoveStep sens st hist x y now touches).scrollEmit = none
    ∧ (handleTouchMoveStep sens st hist x y now touches).state.lastX = x
    ∧ (handleTouchMoveStep sens st hist x y now touches).state.lastY = y
    ∧ (handleTouchMoveStep sens st hist x y now touches).state.lastMoveTime = now)
  ∧ (¬ Real.sqrt ((x - st.lastX) * (x - st.lastX) + (y - st.lastY) * (y - st.lastY))
      < MOVEMENT_DEAD_ZONE → touches = 1 →
    ∃ dx dy, (handleTouchMoveStep sens st hist x y now touches).moveEmit = some (dx, dy)
      ∧ (0 < x - st.lastX → 0 < dx) ∧ (x - st.lastX < 0 → dx < 0) ∧ (x - st.lastX = 0 → dx = 0)
      ∧ (0 < y - st.lastY → 0 < dy) ∧ (y - st.lastY < 0 → dy < 0) ∧ (y - st.lastY = 0 → dy = 0))

/-- The embedded room of the C10 witness. -/
def c10Room : ERoom :=
  { code := "AB23CD", hostSocketId := "embedded-host", clientSocketId := none,
    createdAt := 0 }

/-! ### Lemmas and claim theorems -/

/-! ### Registry lemmas -/

/-- Looking up the key just written by `setRoom` yields the written room. -/
theorem lookupRoom_setRoom_self (k : String) (r : Room) (reg : Registry) :
    lookupRoom k (setRoom k r reg) = some r := by
  induction reg with
  | nil => simp [setRoom, lookupRoom]
  | cons p rest ih =>
    obtain ⟨k', r'⟩ := p
    by_cases h : k' = k
    · simp [setRoom, lookupRoom, h]
    · simp [setRoom, lookupRoom, h, ih]

/-- A key absent from the key list looks up to nothing. -/
theorem lookupRoom_eq_none_of_not_mem (k : String) (reg : Registry)
    (h : k ∉ reg.map Prod.fst) : lookupRoom k reg = none := by
  induction reg with
  | nil => simp [lookupRoom]
  | cons p rest ih =>
    obtain ⟨k', r'⟩ := p
    simp only [List.map_cons, List.mem_cons] at h
    push_neg at h
    simp [lookupRoom, Ne.symm h.1, ih h.2]

/-- With pairwise-distinct keys, deleting a key makes its lookup fail. -/
theorem lookupRoom_deleteRoom_self (k : String) (reg : Registry)
    (h : (reg.map Prod.fst).Nodup) : lookupRoom k (deleteRoom k reg) = none := by
  induction reg with
  | nil => simp [deleteRoom, lookupRoom]
  | cons p rest ih =>
    obtain ⟨k', r'⟩ := p
    simp only [List.map_cons, List.nodup_cons] at h
    by_cases hk : k' = k
    · subst hk
      simp only [deleteRoom, beq_self_eq_true, if_true]
      exact lookupRoom_eq_none_of_not_mem k' rest h.1
    · simp [deleteRoom, lookupRoom, hk, ih h.2]

/-- `hasCode` decides membership of the key list. -/
theorem hasCode_eq_false_iff (k : String) (reg : Registry) :
    hasCode k reg = false ↔ k ∉ reg.map Prod.fst := by
  induction reg with
  | nil => simp [hasCode]
  | cons p rest ih =>
    obtain ⟨k', r'⟩ := p
    simp only [hasCode, List.map_cons, List.mem_cons, Bool.or_eq_false_iff, ih, not_or,
      beq_eq_false_iff_ne]
    constructor
    · rintro ⟨h1, h2⟩; exact ⟨fun e => h1 e.symm, h2⟩
    · rintro ⟨h1, h2⟩; exact ⟨fun e => h1 e.symm, h2⟩

/-- `setRoom` on a fresh key appends the new entry. -/
theorem setRoom_of_not_mem (k : String) (r : Room) (reg : Registry)
    (h : k ∉ reg.map Prod.fst) : setRoom k r reg = reg ++ [(k, r)] := by
  induction reg with
  | nil => simp [setRoom]
  | cons p rest ih =>
    obtain ⟨k', r'⟩ := p
    simp only [List.map_cons, List.mem_cons] at h
    push_neg at h
    simp [setRoom, Ne.symm h.1, ih h.2]

/-- The cleanup sweep preserves registry well-formedness. -/
theorem registryInv_cleanup (now : Nat) (reg : Registry) (h : RegistryInv reg) :
    RegistryInv (cleanupExpiredRooms now reg) := by
  constructor
  · exact h.1.sublist ((List.filter_sublist reg).map Prod.fst)
  · intro p hp
    exact h.2 p (List.mem_of_mem_filter hp)

/-- Unfolding of a successful `createRoom`: the chosen code is fresh among
the surviving rooms, the new room's fields are as written, and the registry
is the cleaned registry with the new room appended under its code. -/
theorem createRoom_eq (draws : List (Fin 6 → Fin 32)) (host : String) (now : Nat)
    (reg : Registry) (room : Room) (reg' : Registry)
    (h : createRoom draws host now reg = some (room, reg')) :
    hasCode room.code (cleanupExpiredRooms now reg) = false
    ∧ room.hostSocketId = host ∧ room.clientSocketId = none
    ∧ room.createdAt = now ∧ room.expiresAt = now + ROOM_EXPIRY_MS
    ∧ reg' = setRoom room.code room (cleanupExpiredRooms now reg)
    ∧ ∃ d ∈ draws, room.code = generateRoomCode d := by
  simp only [createRoom] at h
  cases hf : (draws.map generateRoomCode).find?
      (fun c => !(hasCode c (cleanupExpiredRooms now reg))) with
  | none => rw [hf] at h; simp at h
  | some code =>
    rw [hf] at h
    simp only [Option.some.injEq, Prod.mk.injEq] at h
    obtain ⟨hroom, hreg⟩ := h
    have hpred := List.find?_some hf
    have hmem := List.mem_of_find?_eq_some hf
    simp only [Bool.not_eq_eq_eq_not, Bool.not_true] at hpred
    obtain ⟨d, hd, hgen⟩ := List.mem_map.mp hmem
    subst hroom
    refine ⟨by simpa using hpred, rfl, rfl, rfl, rfl, hreg.symm, d, hd, hgen.symm⟩

/-- C1, refuted on the code (code bug): `joinRoom` at time 400000 with the
lowercase spelling `"ab23cd"` of the expired room's code takes the expired
branch — but `rooms.delete(code)` uses the raw, non-uppercased code, so the
registry is unchanged and both `getRoom` and a later `joinRoom` still find
the room, on any casing; the claim (and the spec) say the room becomes
absent from every subsequent lookup.  The final conjunct shows the
uppercase spelling does delete the room, isolating the missing
`toUpperCase()` in the delete call as the slip. -/
theorem c1_expired_join_leaves_room :
    (joinRoom 400000 "ab23cd" "client-1" c1Reg).1 = JoinResult.expired
    ∧ (joinRoom 400000 "ab23cd" "client-1" c1Reg).2 = c1Reg
    ∧ getRoom "ab23cd" (joinRoom 400000 "ab23cd" "client-1" c1Reg).2 = some c1Room
    ∧ getRoom "AB23CD" (joinRoom 400000 "ab23cd" "client-1" c1Reg).2 = some c1Room
    ∧ (joinRoom 400001 "ab23cd" "client-2"
        (joinRoom 400000 "ab23cd" "client-1" c1Reg).2).1 = JoinResult.expired
    ∧ (joinRoom 400000 "AB23CD" "client-1" c1Reg).2 = [] := by
  decide

/-- C2: after `createRoom` returns a room, a `joinRoom` whose code
uppercases to the room's code, at a time not past the room's expiry and
with a nonempty client socket id, succeeds exactly once — the second join
fails with the already-bound result. -/
theorem c2_create_then_join_binds_once (draws : List (Fin 6 → Fin 32)) (host : String)
    (now0 : Nat) (reg : Registry) (room : Room) (reg' : Registry)
    (codeStr c1 : String) (now1 : Nat)
    (hcr : createRoom draws host now0 reg = some (room, reg'))
    (hcode : jsToUpper codeStr = room.code)
    (ht1 : ¬ now1 > room.expiresAt)
    (hc1 : c1 ≠ "") :
    JoinOnceConcl room reg' codeStr c1 now1 := by
  obtain ⟨-, -, hclient, -, -, hreg', -⟩ := createRoom_eq draws host now0 reg room reg' hcr
  have hlook : lookupRoom (jsToUpper codeStr) reg' = some room := by
    rw [hcode, hreg']; exact lookupRoom_setRoom_self room.code room _
  have hjoin1 : joinRoom now1 codeStr c1 reg' =
      (JoinResult.ok (joinedRoom room c1 now1),
       setRoom (jsToUpper codeStr) (joinedRoom room c1 now1) reg') := by
    unfold joinRoom
    rw [hlook]
    simp [ht1, strTruthy, hclient, joinedRoom]
  refine ⟨joinedRoom room c1 now1, setRoom (jsToUpper codeStr) (joinedRoom room c1 now1) reg',
    hjoin1, rfl, rfl, by norm_num [joinedRoom, ROOM_EXPIRY_MS], ?_⟩
  intro codeStr2 c2 now2 hcode2 ht2
  have hlook2 : lookupRoom (jsToUpper codeStr2)
      (setRoom (jsToUpper codeStr) (joinedRoom room c1 now1) reg')
      = some (joinedRoom room c1 now1) := by
    rw [hcode2, ← hcode]
    exact lookupRoom_setRoom_self _ _ _
  refine ⟨?_, by decide, by decide⟩
  unfold joinRoom
  rw [hlook2]
  have ht2' : ¬ now2 > (joinedRoom room c1 now1).expiresAt := ht2
  simp only [joinedRoom] at ht2'
  simp [ht2', strTruthy, hc1, joinedRoom]

/-- Witness for C2 at a concrete instance: the hypotheses hold at the room
created by `createRoom [c2Draw] "host-1" 0 []` and the conclusion follows
by the theorem. -/
theorem c2_witness :
    createRoom [c2Draw] "host-1" 0 [] = some (c2Room, c2Reg)
    ∧ jsToUpper "aaaaaa" = c2Room.code
    ∧ ¬ (5 : Nat) > c2Room.expiresAt
    ∧ "client-1" ≠ ""
    ∧ JoinOnceConcl c2Room c2Reg "aaaaaa" "client-1" 5 :=
  ⟨by decide, by decide, by decide, by decide,
   c2_create_then_join_binds_once [c2Draw] "host-1" 0 [] c2Room c2Reg "aaaaaa" "client-1" 5
     (by decide) (by decide) (by decide) (by decide)⟩

/-- Every generated code is 6 characters over the 32-symbol alphabet. -/
theorem generateRoomCode_valid (randoms : Fin 6 → Fin 32) :
    isValidRoomCode (generateRoomCode randoms) := by
  have h32 : roomCodeChars.data.length = 32 := by decide
  constructor
  · simp [generateRoomCode]
  · intro c hc
    simp only [generateRoomCode, List.mem_map] at hc
    obtain ⟨i, -, hi⟩ := hc
    have hlt : (randoms i).val < roomCodeChars.data.length := by
      rw [h32]; exact (randoms i).isLt
    rw [← hi, List.getD_eq_getElem _ _ hlt]
    exact List.getElem_mem hlt

/-- C3: the empty registry is well-formed; every generated code is a valid
6-character code; and a successful `createRoom` preserves well-formedness,
picks a code held by no surviving live room (the collision-check loop), and
leaves the live rooms' codes pairwise distinct. -/
theorem c3_codes_unique :
    RegistryInv ([] : Registry)
    ∧ (∀ randoms, isValidRoomCode (generateRoomCode randoms))
    ∧ ∀ draws host now reg room reg', RegistryInv reg →
        createRoom draws host now reg = some (room, reg') →
        RegistryInv reg' ∧ isValidRoomCode room.code
          ∧ room.code ∉ roomCodes (cleanupExpiredRooms now reg)
          ∧ (roomCodes reg').Nodup := by
  have hcodes_keys : ∀ (r : Registry), RegistryInv r → roomCodes r = r.map Prod.fst := by
    intro r hr
    exact List.map_congr_left (fun p hp => hr.2 p hp)
  refine ⟨⟨List.nodup_nil, by simp⟩, generateRoomCode_valid, ?_⟩
  intro draws host now reg room reg' hInv hcr
  obtain ⟨hfresh, -, -, -, -, hreg', d, -, hgen⟩ := createRoom_eq _ _ _ _ _ _ hcr
  have hclean := registryInv_cleanup now reg hInv
  have hnotmem : room.code ∉ (cleanupExpiredRooms now reg).map Prod.fst :=
    (hasCode_eq_false_iff _ _).mp hfresh
  have happ : setRoom room.code room (cleanupExpiredRooms now reg)
      = cleanupExpiredRooms now reg ++ [(room.code, room)] :=
    setRoom_of_not_mem _ _ _ hnotmem
  have hInv' : RegistryInv reg' := by
    rw [hreg', happ]
    constructor
    · simp only [List.map_append, List.map_cons, List.map_nil]
      simp [List.nodup_append, hclean.1, hnotmem]
    · intro p hp
      rcases List.mem_append.mp hp with h1 | h2
      · exact hclean.2 p h1
      · simp only [List.mem_singleton] at h2
        subst h2
        rfl
  refine ⟨hInv', by rw [hgen]; exact generateRoomCode_valid d, ?_, ?_⟩
  · rw [hcodes_keys _ hclean]; exact hnotmem
  · rw [hcodes_keys _ hInv']; exact hInv'.1

/-- Witness for C3 at a concrete instance. -/
theorem c3_witness :
    RegistryInv ([] : Registry)
    ∧ createRoom [c3Draw] "host-9" 0 [] = some (c3Room, c3Reg)
    ∧ RegistryInv c3Reg ∧ isValidRoomCode c3Room.code
    ∧ c3Room.code ∉ roomCodes (cleanupExpiredRooms 0 [])
    ∧ (roomCodes c3Reg).Nodup :=
  ⟨c3_codes_unique.1, by decide,
   (c3_codes_unique.2.2 [c3Draw] "host-9" 0 [] c3Room c3Reg (by decide) (by decide)).1,
   (c3_codes_unique.2.2 [c3Draw] "host-9" 0 [] c3Room c3Reg (by decide) (by decide)).2.1,
   (c3_codes_unique.2.2 [c3Draw] "host-9" 0 [] c3Room c3Reg (by decide) (by decide)).2.2.1,
   (c3_codes_unique.2.2 [c3Draw] "host-9" 0 [] c3Room c3Reg (by decide) (by decide)).2.2.2⟩

/-- C4: for a well-formed registry, removing the host's socket destroys the
room (later joins of its code fail with not-found), while removing the
bound client's socket only unbinds the client, leaving the room present and
joinable again. -/
theorem c4_remove_socket (reg : Registry) (s : String) (r : Room)
    (hInv : RegistryInv reg) (hfind : getRoomBySocketId s reg = some r) :
    RemovalConcl reg s r := by
  constructor
  · intro hhost
    have hrem : (removeSocketFromRoom s reg).1 = deleteRoom r.code reg := by
      unfold removeSocketFromRoom
      rw [hfind]
      simp [hhost]
    have hnone : lookupRoom r.code (deleteRoom r.code reg) = none :=
      lookupRoom_deleteRoom_self r.code reg hInv.1
    refine ⟨by rw [hrem]; exact hnone, ?_⟩
    intro now c codeStr hcode
    unfold joinRoom
    rw [hrem, hcode, hnone]
  · intro hhost hclient
    have hrem : (removeSocketFromRoom s reg).1
        = setRoom r.code { r with clientSocketId := none } reg := by
      unfold removeSocketFromRoom
      rw [hfind]
      simp [hhost, hclient]
    have hlook : lookupRoom r.code (setRoom r.code { r with clientSocketId := none } reg)
        = some { r with clientSocketId := none } := lookupRoom_setRoom_self _ _ _
    refine ⟨by rw [hrem]; exact hlook, ?_⟩
    intro now c codeStr hcode hexp
    refine ⟨joinedRoom r c now, ?_, rfl, rfl⟩
    unfold joinRoom
    rw [hrem, hcode, hlook]
    simp [hexp, strTruthy, joinedRoom]

/-- Witness for C4 at a concrete instance (removing the bound client). -/
theorem c4_witness :
    RegistryInv c4Reg
    ∧ getRoomBySocketId "client-1" c4Reg = some c4Room
    ∧ RemovalConcl c4Reg "client-1" c4Room :=
  ⟨by decide, by decide,
   c4_remove_socket c4Reg "client-1" c4Room (by decide) (by decide)⟩

/-- A room found by `getRoomBySocketId` is stored in the registry. -/
theorem getRoomBySocketId_mem (s : String) (reg : Registry) (r : Room)
    (h : getRoomBySocketId s reg = some r) : ∃ k, (k, r) ∈ reg := by
  induction reg with
  | nil => simp [getRoomBySocketId] at h
  | cons p rest ih =>
    obtain ⟨k', r'⟩ := p
    by_cases hc : (r'.hostSocketId == s || r'.clientSocketId == some s) = true
    · rw [getRoomBySocketId, if_pos hc] at h
      obtain rfl : r' = r := by injection h
      exact ⟨k', List.mem_cons_self _ _⟩
    · rw [getRoomBySocketId, if_neg hc] at h
      obtain ⟨k, hk⟩ := ih h
      exact ⟨k, List.mem_cons_of_mem _ hk⟩

/-- Reduction of the hosted relay once the sender's room is known. -/
theorem relayRemoteMessage_eq_of_find (s : String) (reg : Registry) (room : Room)
    (hfind : getRoomBySocketId s reg = some room) :
    relayRemoteMessage s reg
      = if (room.clientSocketId == some s) && (room.hostSocketId != "") then
          some room.hostSocketId
        else none := by
  unfold relayRemoteMessage
  rw [hfind]

/-- C5: in a registry whose rooms all have nonempty host socket ids (as all
rooms created by the handlers do), application messages flow client → host
only, and non-client senders are dropped silently, in both the hosted and
the embedded relay. -/
theorem c5_relay_client_to_host_only (reg : Registry)
    (hwf : ∀ p ∈ reg, p.2.hostSocketId ≠ "") : RelayConcl reg := by
  refine ⟨?_, ?_, ?_⟩
  · intro s t
    constructor
    · intro h
      cases hfind : getRoomBySocketId s reg with
      | none => unfold relayRemoteMessage at h; rw [hfind] at h; simp at h
      | some room =>
        rw [relayRemoteMessage_eq_of_find s reg room hfind] at h
        by_cases hcond : ((room.clientSocketId == some s) && (room.hostSocketId != "")) = true
        · rw [if_pos hcond] at h
          obtain rfl : room.hostSocketId = t := by injection h
          simp only [Bool.and_eq_true, beq_iff_eq, bne_iff_ne] at hcond
          exact ⟨room, rfl, hcond.1, rfl⟩
        · rw [if_neg hcond] at h; simp at h
    · rintro ⟨room, hfind, hclient, rfl⟩
      obtain ⟨k, hmem⟩ := getRoomBySocketId_mem s reg room hfind
      have hhost : room.hostSocketId ≠ "" := hwf (k, room) hmem
      rw [relayRemoteMessage_eq_of_find s reg room hfind, if_pos]
      simp only [Bool.and_eq_true, beq_iff_eq, bne_iff_ne]
      exact ⟨hclient, hhost⟩
  · intro s room hfind hclient
    rw [relayRemoteMessage_eq_of_find s reg room hfind, if_neg]
    simp only [Bool.and_eq_true, beq_iff_eq, bne_iff_ne, not_and]
    intro hc
    exact absurd hc hclient
  · intro room? s
    cases room? with
    | none => simp [embeddedRelayForwards]
    | some room => simp [embeddedRelayForwards]

/-- Witness for C5 at a concrete registry. -/
theorem c5_witness :
    (∀ p ∈ c5Reg, p.2.hostSocketId ≠ "") ∧ RelayConcl c5Reg :=
  ⟨by decide, c5_relay_client_to_host_only c5Reg (by decide)⟩

/-- Reduction of one failing reconnect invocation under the attempt
ceiling: the counter increments, one attempt is made, a retry is scheduled
after the fixed delay. -/
theorem desktopReconnectStep_failure_low (d : DesktopSt)
    (h : d.tunnel.reconnectAttempts < maxReconnectAttempts) :
    desktopReconnectStep .failure d
      = ({ tunnel := { reconnectAttempts := d.tunnel.reconnectAttempts + 1
                       tunnelUrl := d.tunnel.tunnelUrl }
           advertisedServerUrl := d.advertisedServerUrl },
         true, some tunnelRetryDelayMs) := by
  unfold desktopReconnectStep attemptReconnect
  simp [Nat.not_le.mpr h]

/-- Reduction of a reconnect invocation at the attempt ceiling: no attempt,
no retry, state unchanged. -/
theorem desktopReconnectStep_high (o : ConnectOutcome) (d : DesktopSt)
    (h : maxReconnectAttempts ≤ d.tunnel.reconnectAttempts) :
    desktopReconnectStep o d = (d, false, none) := by
  unfold desktopReconnectStep attemptReconnect
  simp [h]

/-- One-layer unfolding of the failure chain. -/
theorem runFailedReconnects_succ (n : Nat) (d : DesktopSt) :
    runFailedReconnects (n + 1) d
      = (match (desktopReconnectStep .failure d).2.2 with
         | some _ =>
           ((runFailedReconnects n (desktopReconnectStep .failure d).1).1,
            (if (desktopReconnectStep .failure d).2.1 then 1 else 0)
              + (runFailedReconnects n (desktopReconnectStep .failure d).1).2)
         | none => ((desktopReconnectStep .failure d).1,
            if (desktopReconnectStep .failure d).2.1 then 1 else 0)) := rfl

/-- A reconnect invocation under the attempt ceiling, with a failing
connection, increments the counter, counts one attempt, and recurses. -/
theorem runFailedReconnects_succ_low (n : Nat) (d : DesktopSt)
    (h : d.tunnel.reconnectAttempts < maxReconnectAttempts) :
    runFailedReconnects (n + 1) d
      = ((runFailedReconnects n
            { tunnel := { reconnectAttempts := d.tunnel.reconnectAttempts + 1
                          tunnelUrl := d.tunnel.tunnelUrl }
              advertisedServerUrl := d.advertisedServerUrl }).1,
         1 + (runFailedReconnects n
            { tunnel := { reconnectAttempts := d.tunnel.reconnectAttempts + 1
                          tunnelUrl := d.tunnel.tunnelUrl }
              advertisedServerUrl := d.advertisedServerUrl }).2) := by
  rw [runFailedReconnects_succ, desktopReconnectStep_failure_low d h]
  rfl

/-- A reconnect invocation at the attempt ceiling makes no attempt and
stops the chain. -/
theorem runFailedReconnects_succ_high (n : Nat) (d : DesktopSt)
    (h : maxReconnectAttempts ≤ d.tunnel.reconnectAttempts) :
    runFailedReconnects (n + 1) d = (d, 0) := by
  rw [runFailedReconnects_succ, desktopReconnectStep_high .failure d h]
  rfl

/-- Invariant of an all-failure reconnect chain: the number of attempts is
`min fuel (ceiling - counter)`, and neither the advertised URL nor the
tunnel URL changes. -/
theorem runFailedReconnects_spec (fuel : Nat) (d : DesktopSt) :
    (runFailedReconnects fuel d).2
      = min fuel (maxReconnectAttempts - d.tunnel.reconnectAttempts)
    ∧ (runFailedReconnects fuel d).1.advertisedServerUrl = d.advertisedServerUrl
    ∧ (runFailedReconnects fuel d).1.tunnel.tunnelUrl = d.tunnel.tunnelUrl := by
  induction fuel generalizing d with
  | zero => simp [runFailedReconnects]
  | succ n ih =>
    by_cases h : d.tunnel.reconnectAttempts ≥ maxReconnectAttempts
    · rw [runFailedReconnects_succ_high n d h]
      refine ⟨?_, rfl, rfl⟩
      have h0 : maxReconnectAttempts - d.tunnel.reconnectAttempts = 0 := by omega
      simp [h0]
    · have hlt : d.tunnel.reconnectAttempts < maxReconnectAttempts := by omega
      rw [runFailedReconnects_succ_low n d hlt]
      obtain ⟨hc, ha, ht⟩ := ih { tunnel := { reconnectAttempts := d.tunnel.reconnectAttempts + 1
                                              tunnelUrl := d.tunnel.tunnelUrl }
                                  advertisedServerUrl := d.advertisedServerUrl }
      refine ⟨?_, ha, ht⟩
      simp only [hc]
      omega

/-- C6 counterexample, closed: the tunnel connects to a public URL, closes,
and all five reconnection attempts fail; exactly 5 attempts are made (more
fuel adds no 6th), yet the advertised URL is still the dead tunnel URL —
the system does NOT settle advertising `http://localhost:<port>` as the
claim states. -/
theorem c6_counterexample :
    (runFailedReconnects 10
        (onTunnelClose (initializeTunnel (ConnectOutcome.success "https://demo.loca.lt")))).2 = 5
    ∧ (runFailedReconnects 10
        (onTunnelClose (initializeTunnel (ConnectOutcome.success "https://demo.loca.lt")))).1.advertisedServerUrl
        = some "https://demo.loca.lt"
    ∧ ¬ (runFailedReconnects 10
        (onTunnelClose (initializeTunnel (ConnectOutcome.success "https://demo.loca.lt")))).1.advertisedServerUrl
        = some localOnlyUrl
    ∧ (runFailedReconnects 11
        (onTunnelClose (initializeTunnel (ConnectOutcome.success "https://demo.loca.lt")))).2 = 5 := by
  decide

/-- C6 as amended: after a tunnel close, an all-failure chain makes
`min fuel 5` attempts from a reset counter and never more than 5; every
scheduled retry delay is exactly 5000 ms; with the tunnel down the chain
leaves the tunnel URL unset and the advertised URL unchanged, and a
subsequent room regeneration would advertise `http://localhost:<port>`;
the initial-connect failure path advertises `http://localhost:<port>`
directly (with no retry). -/
theorem c6_amended :
    (∀ fuel d, d.tunnel.reconnectAttempts = 0 →
       (runFailedReconnects fuel d).2 = min fuel maxReconnectAttempts)
    ∧ (∀ fuel d, (runFailedReconnects fuel d).2 ≤ maxReconnectAttempts)
    ∧ (∀ o d delay, (desktopReconnectStep o d).2.2 = some delay → delay = tunnelRetryDelayMs)
    ∧ (∀ fuel d, d.tunnel.tunnelUrl = none →
        (runFailedReconnects fuel d).1.tunnel.tunnelUrl = none
        ∧ (runFailedReconnects fuel d).1.advertisedServerUrl = d.advertisedServerUrl
        ∧ regenerateServerUrl (runFailedReconnects fuel d).1 = localOnlyUrl)
    ∧ initializeTunnel ConnectOutcome.failure
        = { tunnel := { reconnectAttempts := 0, tunnelUrl := none }
            advertisedServerUrl := some localOnlyUrl } := by
  refine ⟨?_, ?_, ?_, ?_, rfl⟩
  · intro fuel d h0
    have hc := (runFailedReconnects_spec fuel d).1
    rw [h0] at hc
    simpa using hc
  · intro fuel d
    have := (runFailedReconnects_spec fuel d).1
    rw [this]
    omega
  · intro o d delay h
    unfold desktopReconnectStep attemptReconnect at h
    by_cases hge : d.tunnel.reconnectAttempts ≥ maxReconnectAttempts
    · simp [hge] at h
    · cases o with
      | success url => simp [hge] at h
      | failure =>
        simp [hge] at h
        exact h.symm
  · intro fuel d hurl
    obtain ⟨-, ha, ht⟩ := runFailedReconnects_spec fuel d
    have ht' : (runFailedReconnects fuel d).1.tunnel.tunnelUrl = none := by rw [ht, hurl]
    refine ⟨ht', ha, ?_⟩
    unfold regenerateServerUrl
    rw [ht']
    rfl

/-- Witness for C6 (amended) at a concrete state. -/
theorem c6_witness :
    c6WitnessSt.tunnel.reconnectAttempts = 0
    ∧ c6WitnessSt.tunnel.tunnelUrl = none
    ∧ (runFailedReconnects 7 c6WitnessSt).2 = min 7 maxReconnectAttempts
    ∧ (runFailedReconnects 7 c6WitnessSt).1.advertisedServerUrl = c6WitnessSt.advertisedServerUrl
    ∧ regenerateServerUrl (runFailedReconnects 7 c6WitnessSt).1 = localOnlyUrl :=
  ⟨rfl, rfl, c6_amended.1 7 c6WitnessSt rfl,
   (c6_amended.2.2.2.1 7 c6WitnessSt rfl).2.1,
   (c6_amended.2.2.2.1 7 c6WitnessSt rfl).2.2⟩

/-- The dispatch loop is a pure map: each message's outcome is computed by
`handleRemoteMessage` alone, independent of the other messages. -/
theorem dispatchLoop_eq_map (hasInput hasOsc : Bool)
    (sink : SinkEffect → Except String Unit) (msgs : List RemoteMessage) :
    dispatchLoop hasInput hasOsc sink msgs
      = msgs.map (handleRemoteMessage hasInput hasOsc sink) := by
  induction msgs with
  | nil => rfl
  | cons m ms ih => simp [dispatchLoop, ih]

/-- C7: dispatch processes every message (same length, `i`-th outcome a
function of the `i`-th message only, cons-step independence); an unknown
tag is logged and ignored, never fatal; a sink that throws on the one call
a message induces yields a caught outcome for that message — by the map
equations this leaves every other message's outcome untouched; and a
succeeding sink call is applied normally. -/
theorem c7_dispatch_isolation :
    (∀ hasInput hasOsc sink msgs,
       (dispatchLoop hasInput hasOsc sink msgs).length = msgs.length)
    ∧ (∀ hasInput hasOsc sink msgs (i : Nat),
       (dispatchLoop hasInput hasOsc sink msgs)[i]?
         = (msgs[i]?).map (handleRemoteMessage hasInput hasOsc sink))
    ∧ (∀ hasInput hasOsc sink m ms,
       dispatchLoop hasInput hasOsc sink (m :: ms)
         = handleRemoteMessage hasInput hasOsc sink m :: dispatchLoop hasInput hasOsc sink ms)
    ∧ (∀ hasOsc sink tag,
       handleRemoteMessage true hasOsc sink (RemoteMessage.unknown tag)
         = HandleOutcome.unknownLogged tag)
    ∧ (∀ hasOsc sink msg e err, effectCall hasOsc msg = some e →
       sink e = Except.error err →
       handleRemoteMessage true hasOsc sink msg = HandleOutcome.caught err)
    ∧ (∀ hasOsc sink msg e, effectCall hasOsc msg = some e →
       sink e = Except.ok () →
       handleRemoteMessage true hasOsc sink msg = HandleOutcome.applied e) := by
  refine ⟨?_, ?_, ?_, ?_, ?_, ?_⟩
  · intro hasInput hasOsc sink msgs
    rw [dispatchLoop_eq_map]
    exact List.length_map msgs _
  · intro hasInput hasOsc sink msgs i
    rw [dispatchLoop_eq_map]
    simp
  · intro hasInput hasOsc sink m ms
    rfl
  · intro hasOsc sink tag
    rfl
  · intro hasOsc sink msg e err he hs
    cases msg <;> simp_all [handleRemoteMessage, effectCall]
  · intro hasOsc sink msg e he hs
    cases msg <;> simp_all [handleRemoteMessage, effectCall]

/-- Witness for C7 at a concrete failing sink and message. -/
theorem c7_witness :
    effectCall true (RemoteMessage.click "left") = some (SinkEffect.click "left")
    ∧ (fun _ => (Except.error "boom" : Except String Unit)) (SinkEffect.click "left")
        = Except.error "boom"
    ∧ handleRemoteMessage true true (fun _ => Except.error "boom")
        (RemoteMessage.click "left") = HandleOutcome.caught "boom" :=
  ⟨rfl, rfl,
   c7_dispatch_isolation.2.2.2.2.1 true (fun _ => Except.error "boom")
     (RemoteMessage.click "left") (SinkEffect.click "left") "boom" rfl rfl⟩

/-- The normalized velocity of the default configuration is nonnegative at
or above the threshold. -/
theorem calcAccel_norm_nonneg (v : ℝ)
    (h : ¬ v < DEFAULT_ACCELERATION.minVelocityThreshold) :
    (0:ℝ) ≤ min ((v - 0.15) / (1.5 - 0.15)) 1 := by
  push_neg at h
  have h' : (0.15:ℝ) ≤ v := by
    have : DEFAULT_ACCELERATION.minVelocityThreshold = (0.15:ℝ) := by
      norm_num [DEFAULT_ACCELERATION]
    rw [this] at h
    exact h
  exact le_min (div_nonneg (by linarith) (by norm_num)) (by norm_num)

/-- Below the threshold the default multiplier is the precision-mode value
`baseMultiplier * 0.8 = 0.8`. -/
theorem calcAccel_below (v : ℝ) (h : v < DEFAULT_ACCELERATION.minVelocityThreshold) :
    calculateAcceleration v DEFAULT_ACCELERATION = 0.8 := by
  rw [calculateAcceleration, if_pos h]
  norm_num [DEFAULT_ACCELERATION]

/-- At or above the threshold the default multiplier is the interpolated
curve value. -/
theorem calcAccel_above (v : ℝ) (h : ¬ v < DEFAULT_ACCELERATION.minVelocityThreshold) :
    calculateAcceleration v DEFAULT_ACCELERATION
      = 1 + (min ((v - 0.15) / (1.5 - 0.15)) 1) ^ (1.2:ℝ) * (2.2 - 1) := by
  rw [calculateAcceleration, if_neg h]
  norm_num [DEFAULT_ACCELERATION]

/-- The default acceleration multiplier is strictly positive at every
velocity. -/
theorem calcAccel_default_pos (v : ℝ) :
    0 < calculateAcceleration v DEFAULT_ACCELERATION := by
  by_cases h : v < DEFAULT_ACCELERATION.minVelocityThreshold
  · rw [calcAccel_below v h]
    norm_num
  · rw [calcAccel_above v h]
    have hc : (0:ℝ) ≤ (min ((v - 0.15) / (1.5 - 0.15)) 1) ^ (1.2:ℝ) :=
      Real.rpow_nonneg (calcAccel_norm_nonneg v h) _
    nlinarith

/-- C8: under the default configuration the acceleration multiplier is
monotone non-decreasing in velocity on `[0, maxVelocity]`, and the
multiplier at velocity 0 (the precision-mode `baseMultiplier * 0.8`) is
strictly below the multiplier at `maxVelocity` (`maxAcceleration`). -/
theorem c8_acceleration_monotone (v1 v2 : ℝ) (_h0 : 0 ≤ v1) (h12 : v1 ≤ v2)
    (_h2 : v2 ≤ DEFAULT_ACCELERATION.maxVelocity) :
    calculateAcceleration v1 DEFAULT_ACCELERATION
      ≤ calculateAcceleration v2 DEFAULT_ACCELERATION
    ∧ calculateAcceleration 0 DEFAULT_ACCELERATION
      < calculateAcceleration DEFAULT_ACCELERATION.maxVelocity DEFAULT_ACCELERATION := by
  constructor
  · by_cases hv1 : v1 < DEFAULT_ACCELERATION.minVelocityThreshold
    · rw [calcAccel_below v1 hv1]
      by_cases hv2 : v2 < DEFAULT_ACCELERATION.minVelocityThreshold
      · rw [calcAccel_below v2 hv2]
      · rw [calcAccel_above v2 hv2]
        have hc : (0:ℝ) ≤ (min ((v2 - 0.15) / (1.5 - 0.15)) 1) ^ (1.2:ℝ) :=
          Real.rpow_nonneg (calcAccel_norm_nonneg v2 hv2) _
        nlinarith
    · have hv2 : ¬ v2 < DEFAULT_ACCELERATION.minVelocityThreshold := by
        simp only [DEFAULT_ACCELERATION] at hv1 ⊢
        intro hc
        exact hv1 (lt_of_le_of_lt h12 hc)
      rw [calcAccel_above v1 hv1, calcAccel_above v2 hv2]
      have hn1 := calcAccel_norm_nonneg v1 hv1
      have hmono : min ((v1 - 0.15) / (1.5 - 0.15)) 1
          ≤ min ((v2 - 0.15) / (1.5 - 0.15)) 1 :=
        min_le_min (div_le_div_of_nonneg_right (by linarith) (by norm_num)) le_rfl
      have hr : (min ((v1 - 0.15) / (1.5 - 0.15)) 1) ^ (1.2:ℝ)
          ≤ (min ((v2 - 0.15) / (1.5 - 0.15)) 1) ^ (1.2:ℝ) :=
        Real.rpow_le_rpow hn1 hmono (by norm_num)
      have := mul_le_mul_of_nonneg_right hr (by norm_num : (0:ℝ) ≤ 2.2 - 1)
      linarith
  · have ha : calculateAcceleration 0 DEFAULT_ACCELERATION = 0.8 :=
      calcAccel_below 0 (by norm_num [DEFAULT_ACCELERATION])
    have hmax : DEFAULT_ACCELERATION.maxVelocity = (1.5:ℝ) := by
      norm_num [DEFAULT_ACCELERATION]
    have hb : calculateAcceleration DEFAULT_ACCELERATION.maxVelocity DEFAULT_ACCELERATION
        = 1 + (min ((1.5 - 0.15) / (1.5 - 0.15)) 1) ^ (1.2:ℝ) * (2.2 - 1) := by
      rw [hmax]
      exact calcAccel_above 1.5 (by norm_num [DEFAULT_ACCELERATION])
    have hdiv : ((1.5:ℝ) - 0.15) / (1.5 - 0.15) = 1 := by norm_num
    rw [ha, hb, hdiv, min_self, Real.one_rpow]
    norm_num

/-- Witness for C8 at concrete velocities 0 and 1. -/
theorem c8_witness :
    (0:ℝ) ≤ 0 ∧ (0:ℝ) ≤ 1 ∧ (1:ℝ) ≤ DEFAULT_ACCELERATION.maxVelocity
    ∧ calculateAcceleration 0 DEFAULT_ACCELERATION
        ≤ calculateAcceleration 1 DEFAULT_ACCELERATION :=
  ⟨le_refl 0, by norm_num, by norm_num [DEFAULT_ACCELERATION],
   (c8_acceleration_monotone 0 1 (le_refl 0) (by norm_num)
     (by norm_num [DEFAULT_ACCELERATION])).1⟩

/-- Reduction of a single-touch `handleTouchMove` outside the dead zone:
the emitted delta is the raw delta times the (positive) acceleration factor
times the sensitivity. -/
theorem handleTouchMoveStep_far (sens : ℝ) (st : TouchSt) (hist : List (ℝ × ℝ))
    (x y now : ℝ)
    (hm : ¬ Real.sqrt ((x - st.lastX) * (x - st.lastX) + (y - st.lastY) * (y - st.lastY))
      < MOVEMENT_DEAD_ZONE) :
    handleTouchMoveStep sens st hist x y now 1
      = { state := { lastX := x, lastY := y, lastMoveTime := now }
          history := (getSmoothedVelocity hist
            ((x - st.lastX) / max (now - st.lastMoveTime) 1,
             (y - st.lastY) / max (now - st.lastMoveTime) 1)).1
          moveEmit := some
            ((x - st.lastX) * calculateAcceleration (smoothedSpeed st hist x y now)
                DEFAULT_ACCELERATION * sens,
             (y - st.lastY) * calculateAcceleration (smoothedSpeed st hist x y now)
                DEFAULT_ACCELERATION * sens)
          scrollEmit := none } := by
  simp [handleTouchMoveStep, hm, smoothedSpeed]

/-- C9: with positive sensitivity, the dead zone suppresses the delta while
the bookkeeping advances, and an emitted single-touch delta preserves the
componentwise sign of the raw displacement. -/
theorem c9_dead_zone_and_sign (sens : ℝ) (st : TouchSt) (hist : List (ℝ × ℝ))
    (x y now : ℝ) (touches : Nat) (hs : 0 < sens) :
    C9Concl sens st hist x y now touches := by
  constructor
  · intro hm
    simp [handleTouchMoveStep, hm]
  · intro hm h1
    subst h1
    rw [handleTouchMoveStep_far sens st hist x y now hm]
    have ha : 0 < calculateAcceleration (smoothedSpeed st hist x y now) DEFAULT_ACCELERATION :=
      calcAccel_default_pos _
    refine ⟨_, _, rfl, ?_, ?_, ?_, ?_, ?_, ?_⟩
    · intro hx
      exact mul_pos (mul_pos hx ha) hs
    · intro hx
      exact mul_neg_of_neg_of_pos (mul_neg_of_neg_of_pos hx ha) hs
    · intro hx
      rw [hx, zero_mul, zero_mul]
    · intro hy
      exact mul_pos (mul_pos hy ha) hs
    · intro hy
      exact mul_neg_of_neg_of_pos (mul_neg_of_neg_of_pos hy ha) hs
    · intro hy
      rw [hy, zero_mul, zero_mul]

/-- Witness for C9 at sensitivity 1 and a concrete sample. -/
theorem c9_witness :
    (0:ℝ) < 1 ∧ C9Concl 1 { lastX := 0, lastY := 0, lastMoveTime := 0 } [] 3 4 10 1 :=
  ⟨by norm_num,
   c9_dead_zone_and_sign 1 { lastX := 0, lastY := 0, lastMoveTime := 0 } [] 3 4 10 1
     (by norm_num)⟩

/-- C10: the embedded room is created with no client bound (and, by the
shape of `ERoom`, with no expiry timestamp at all); the embedded `join-room`
handler reads no clock — joining succeeds exactly when the supplied code
uppercases to the room's code and no client is currently bound, regardless
of how much time has passed since `createRoom`. -/
theorem c10_embedded_no_expiry :
    (∀ randoms now, (embeddedCreateRoom randoms now).clientSocketId = none
      ∧ (embeddedCreateRoom randoms now).code = generateRoomCode randoms)
    ∧ (∀ (room : ERoom) codeStr c, jsToUpper codeStr = room.code →
        room.clientSocketId = none →
        embeddedJoinRoom (some room) codeStr c
          = (some { room with clientSocketId := some c },
             EJoinResult.success { room with clientSocketId := some c }))
    ∧ (∀ (room : ERoom) codeStr c,
        (∃ r', (embeddedJoinRoom (some room) codeStr c).2 = EJoinResult.success r')
          ↔ (jsToUpper codeStr = room.code ∧ strTruthy room.clientSocketId = false)) := by
  refine ⟨fun randoms now => ⟨rfl, rfl⟩, ?_, ?_⟩
  · intro room codeStr c hcode hclient
    unfold embeddedJoinRoom
    rw [hcode]
    simp [strTruthy, hclient]
  · intro room codeStr c
    unfold embeddedJoinRoom
    by_cases hcode : jsToUpper codeStr = room.code
    · rw [hcode]
      by_cases hb : strTruthy room.clientSocketId = true
      · simp [hb]
      · simp only [Bool.not_eq_true] at hb
        simp [hb]
    · have hne : (jsToUpper codeStr != room.code) = true := by
        simpa using hcode
      simp [hne, hcode]

/-- Witness for C10 at a concrete embedded room and lowercase join code. -/
theorem c10_witness :
    jsToUpper "ab23cd" = c10Room.code
    ∧ c10Room.clientSocketId = none
    ∧ embeddedJoinRoom (some c10Room) "ab23cd" "client-1"
        = (some { c10Room with clientSocketId := some "client-1" },
           EJoinResult.success { c10Room with clientSocketId := some "client-1" }) :=
  ⟨by decide, rfl,
   c10_embedded_no_expiry.2.1 c10Room "ab23cd" "client-1" (by decide) rfl⟩
